import Mathlib

/-!
Verification development for the graph-node repository: a shallow Lean
embedding of the code under scrutiny, together with theorems settling the
specification claims about it.

Embedded source files:
* `thegraph-ethereum/src/ethereum_adapter.rs` — `contract_call`
* `thegraph-runtime/src/asc_abi/to_from.rs` — host ABI encoders/decoders
* `store/postgres/src/entities.rs` — entity `Connection`, `update_entity_count`
* `store/postgres/src/metadata.rs` — block pointers, subgraph versions
* `store/postgres/src/connection_pool.rs` — wait-time logging throttle

Machine integers are modelled as `Nat`/`Int` (none of the embedded
operations can overflow their Rust/SQL types on the inputs the theorems
quantify over: SQL `numeric` is unbounded and Postgres raises an error,
rather than wrapping, on `integer` overflow). Rust panics are modelled by
an explicit `panicked` result constructor, fallible code by `Except` or
`Option`.
-/

namespace GraphNode

/-! ## Host-side Ethereum ABI values

Variants of `ethabi::Token`. An `address` carries the 20 bytes of an
`ethereum_types::H160`; `int`/`uint` carry the four little-endian `u64`
limbs of an `ethereum_types::U256` (its `.0` field); `string` carries the
Unicode scalar values of a Rust `String`; byte buffers are byte lists.
-/

inductive EthToken where
  | address (bytes20 : List Nat)
  | fixedBytes (bytes : List Nat)
  | bytes (bytes : List Nat)
  | int (limbs : List Nat)
  | uint (limbs : List Nat)
  | bool (b : Bool)
  | string (chars : List Nat)
  | fixedArray (elems : List EthToken)
  | array (elems : List EthToken)

/-! ## Chain adapter: `contract_call`
(`thegraph-ethereum/src/ethereum_adapter.rs`, lines 79-94) -/

/-- Outcome of the underlying `eth_call` JSON-RPC request as observed by
`contract_call`: the web3 future fails — with a deliberate contract revert
surfacing as an RPC error or with a transport failure — or it succeeds
with the raw output bytes. -/
inductive Web3CallOutcome where
  | reverted
  | transportFailed
  | success (output : List Nat)
deriving DecidableEq, Repr

/-- Error type of `contract_call`. The enum is declared outside this
repository (in the thegraph components crate); `Failed` is the only
variant the adapter code under src constructs. -/
inductive EthereumContractCallError where
  | Failed
deriving DecidableEq, Repr

/-- Model of the `ethabi::Function` of a call request, by the one
behaviour `contract_call`'s failure branches consume: its `decode_output`
method. The preceding `encode_input(..).unwrap()` happens before the
branches under scrutiny and is modelled as already done. -/
structure EthFunction where
  decodeOutput : List Nat → Except Unit (List EthToken)

/-- `EthereumAdapter::contract_call`: run the `eth_call`, turn any web3
error into `EthereumContractCallError::Failed` via `map_err`, then decode
the output, turning any decode error into `Failed` as well. -/
def contract_call (f : EthFunction) (outcome : Web3CallOutcome) :
    Except EthereumContractCallError (List EthToken) :=
  match outcome with
  | .reverted => .error .Failed
  | .transportFailed => .error .Failed
  | .success output =>
    match f.decodeOutput output with
    | .ok tokens => .ok tokens
    | .error _ => .error .Failed

/-- A concrete call-request function whose output decoder accepts any
bytes and returns no tokens. -/
def constOkFunction : EthFunction :=
  ⟨fun _ => .ok []⟩

/-- A concrete call-request function whose output decoder rejects any
bytes. -/
def constErrFunction : EthFunction :=
  ⟨fun _ => .error ()⟩

/-! ## Store backend: `update_entity_count`
(`store/postgres/src/entities.rs`, lines 198-235) -/

/-- `Connection::update_entity_count(delta)` acting on the
`entity_count` column of the connection's `subgraph_deployment` row.
`stored` is the current column value (`none` for SQL NULL), `trueCount`
is the value the full `COUNT(*)` subquery would produce. The SQL update
sets the column to `coalesce(nullif(entity_count, -1) + $1, count_query)`:
`nullif` maps the sentinel `-1` to NULL, adding `$1` to NULL stays NULL,
and `coalesce` then falls through to the count query. The Rust function
returns without running any SQL when `delta == 0`. -/
def update_entity_count (delta : Int) (stored : Option Int) (trueCount : Int) :
    Option Int :=
  if delta = 0 then stored
  else
    match stored with
    | none => some trueCount
    | some ec => if ec = -1 then some trueCount else some (ec + delta)

/-! ## Store backend: block pointer movement and reorg counters
(`store/postgres/src/metadata.rs`, lines 228-270) -/

/-- An Ethereum block pointer: 32-byte hash and block number. -/
structure BlockPtr where
  hash : List Nat
  number : Nat
deriving DecidableEq, Repr

/-- A row of `subgraphs.subgraph_deployment`, restricted to the columns
the embedded operations read or write. The three reorg counters are SQL
`integer` columns and therefore signed. -/
structure DeploymentRow where
  id : String
  synced : Bool
  latest_ethereum_block_hash : Option (List Nat)
  latest_ethereum_block_number : Option Nat
  entity_count : Option Int
  reorg_count : Int
  current_reorg_depth : Int
  max_reorg_depth : Int
deriving DecidableEq, Repr

/-- Effect of the UPDATE in `forward_block_ptr` on one matching row: set
the latest block hash and number and zero `current_reorg_depth`. -/
def forwardBlockPtrRow (r : DeploymentRow) (ptr : BlockPtr) : DeploymentRow :=
  { r with
      latest_ethereum_block_number := some ptr.number
      latest_ethereum_block_hash := some ptr.hash
      current_reorg_depth := 0 }

/-- Effect of the UPDATE in `revert_block_ptr` on one matching row. In a
single SQL UPDATE every right-hand side reads the old row, so
`greatest(current_reorg_depth + 1, max_reorg_depth)` is computed from the
old `current_reorg_depth` and the old `max_reorg_depth`. -/
def revertBlockPtrRow (r : DeploymentRow) (ptr : BlockPtr) : DeploymentRow :=
  { r with
      latest_ethereum_block_number := some ptr.number
      latest_ethereum_block_hash := some ptr.hash
      reorg_count := r.reorg_count + 1
      current_reorg_depth := r.current_reorg_depth + 1
      max_reorg_depth := max (r.current_reorg_depth + 1) r.max_reorg_depth }

/-- `forward_block_ptr(id, ptr)` over the `subgraph_deployment` table:
update every row whose `id` column matches. -/
def forward_block_ptr (tbl : List DeploymentRow) (id : String) (ptr : BlockPtr) :
    List DeploymentRow :=
  tbl.map fun r => if r.id = id then forwardBlockPtrRow r ptr else r

/-- `revert_block_ptr(id, ptr)` over the `subgraph_deployment` table:
update every row whose `id` column matches. -/
def revert_block_ptr (tbl : List DeploymentRow) (id : String) (ptr : BlockPtr) :
    List DeploymentRow :=
  tbl.map fun r => if r.id = id then revertBlockPtrRow r ptr else r

/-- The reorg-counter predicate of the claim:
`reorg_count >= current_reorg_depth` and
`current_reorg_depth <= max_reorg_depth`. -/
def CounterInv (r : DeploymentRow) : Prop :=
  r.current_reorg_depth ≤ r.reorg_count ∧ r.current_reorg_depth ≤ r.max_reorg_depth

/-- The reorg-counter predicate strengthened with nonnegativity of
`current_reorg_depth`; this version is preserved by both block pointer
operations. -/
def CounterInvNonneg (r : DeploymentRow) : Prop :=
  0 ≤ r.current_reorg_depth ∧
    r.current_reorg_depth ≤ r.reorg_count ∧ r.current_reorg_depth ≤ r.max_reorg_depth

/-- A deployment row whose three reorg counters are all `-1`. -/
def negCounterRow : DeploymentRow :=
  { id := "Qmdeployment"
    synced := false
    latest_ethereum_block_hash := none
    latest_ethereum_block_number := none
    entity_count := none
    reorg_count := -1
    current_reorg_depth := -1
    max_reorg_depth := -1 }

/-- A deployment row with all reorg counters zero. -/
def zeroCounterRow : DeploymentRow :=
  { id := "Qmdeployment"
    synced := false
    latest_ethereum_block_hash := none
    latest_ethereum_block_number := none
    entity_count := none
    reorg_count := 0
    current_reorg_depth := 0
    max_reorg_depth := 0 }

/-- A concrete block pointer. -/
def ptr0 : BlockPtr :=
  { hash := List.replicate 32 0, number := 5 }

/-! ## Store backend: connection pool wait-time logging
(`store/postgres/src/connection_pool.rs`, lines 51-75) -/

/-- State of the pool `EventHandler` relevant to wait-time logging: the
wall-clock time (in seconds) at which `last_log` was last set, and the
samples accumulated in the wait-time moving statistics. `MovingStats`
lives outside src (graph prelude); the spec says a wait-time moving
average is maintained, so the statistics are modelled as the list of
recorded durations with their mean as the average. -/
structure PoolEventHandlerState where
  lastLog : Nat
  waitSamples : List Nat
deriving DecidableEq, Repr

/-- Average of the moving statistics: `none` when there are no samples. -/
def movingAverage (samples : List Nat) : Option Nat :=
  if samples.isEmpty then none else some (samples.sum / samples.length)

/-- `EventHandler::add_wait_time` called at wall-clock time `now` with a
checkout wait `duration`: if more than 10 seconds elapsed since
`last_log`, reset `last_log` to now and plan to log; always add the
duration to the moving statistics; emit the average if planned and
available. Returns the new state and whether a log line was emitted.
Instants are monotone, so elapsed time `now - lastLog > 10` is rendered
as `lastLog + 10 < now` (the two agree on `Nat` throughout). -/
def add_wait_time (s : PoolEventHandlerState) (now duration : Nat) :
    PoolEventHandlerState × Bool :=
  let shouldLog : Bool := decide (s.lastLog + 10 < now)
  let lastLog := if shouldLog then now else s.lastLog
  let samples := s.waitSamples ++ [duration]
  let waitAvg := if shouldLog then movingAverage samples else none
  (⟨lastLog, samples⟩, waitAvg.isSome)

/-- Run a sequence of `(now, duration)` recordings through
`add_wait_time`, collecting for each recording its time and whether it
emitted a log line. -/
def runWaitEvents :
    PoolEventHandlerState → List (Nat × Nat) →
      PoolEventHandlerState × List (Nat × Bool)
  | s, [] => (s, [])
  | s, (now, d) :: rest =>
    let step := add_wait_time s now d
    let next := runWaitEvents step.1 rest
    (next.1, (now, step.2) :: next.2)

/-- Times of the recordings that emitted a log line. -/
def loggedTimes (out : List (Nat × Bool)) : List Nat :=
  (out.filter (fun e => e.2)).map (fun e => e.1)

/-! ## Store backend: entity `Connection` subgraph confinement
(`store/postgres/src/entities.rs`, lines 80-175) -/

/-- Result of a Rust computation that may panic. -/
inductive PanicOr (α : Type) where
  | panicked
  | ok (val : α)

/-- Store-level error type; its variants are irrelevant to the claims, a
single placeholder variant stands for all of them. -/
inductive StoreError where
  | unknown
deriving DecidableEq, Repr

/-- An entity key: subgraph, entity type, entity id. -/
structure EntityKey where
  subgraph_id : String
  entity_type : String
  entity_id : String
deriving DecidableEq, Repr

/-- The per-deployment `Layout` (defined in relational.rs, outside src),
modelled by the operations `Connection` dispatches to, over an abstract
entity type `ε`. -/
structure Layout (ε : Type) where
  findFn : String → String → Int → Except StoreError (Option ε)
  insertFn : EntityKey → ε → Int → Except StoreError Unit
  updateFn : EntityKey → ε → Int → Except StoreError Unit
  deleteFn : EntityKey → Int → Except StoreError Nat

/-- `block_number(ptr)`: the block number as the i32 `BlockNumber`. -/
def blockNumber (ptr : BlockPtr) : Int :=
  ptr.number

/-- An entity-store `Connection`: the layout of the subgraph's data and
the subgraph the connection was created for. -/
structure Connection (ε : Type) where
  data : Layout ε
  subgraph : String

/-- `Connection::layout_for(key)`: panics unless the key references the
connection's subgraph, otherwise returns the data layout. -/
def Connection.layout_for {ε : Type} (c : Connection ε) (key : EntityKey) :
    PanicOr (Layout ε) :=
  if key.subgraph_id ≠ c.subgraph then .panicked else .ok c.data

/-- `Connection::find`: asserts that the key references the connection's
subgraph (panicking otherwise), then dispatches to the layout. -/
def Connection.find {ε : Type} (c : Connection ε) (key : EntityKey)
    (block : Int) : PanicOr (Except StoreError (Option ε)) :=
  if c.subgraph = key.subgraph_id then
    .ok (c.data.findFn key.entity_type key.entity_id block)
  else .panicked

/-- `Connection::insert`: resolves the layout via `layout_for` (panicking
on a foreign subgraph), then dispatches. -/
def Connection.insert {ε : Type} (c : Connection ε) (key : EntityKey)
    (entity : ε) (ptr : BlockPtr) : PanicOr (Except StoreError Unit) :=
  match c.layout_for key with
  | .panicked => .panicked
  | .ok layout => .ok (layout.insertFn key entity (blockNumber ptr))

/-- `Connection::update`: resolves the layout via `layout_for` (panicking
on a foreign subgraph), then dispatches. -/
def Connection.update {ε : Type} (c : Connection ε) (key : EntityKey)
    (entity : ε) (ptr : BlockPtr) : PanicOr (Except StoreError Unit) :=
  match c.layout_for key with
  | .panicked => .panicked
  | .ok layout => .ok (layout.updateFn key entity (blockNumber ptr))

/-- `Connection::delete`: resolves the layout via `layout_for` (panicking
on a foreign subgraph), then dispatches. -/
def Connection.delete {ε : Type} (c : Connection ε) (key : EntityKey)
    (ptr : BlockPtr) : PanicOr (Except StoreError Nat) :=
  match c.layout_for key with
  | .panicked => .panicked
  | .ok layout => .ok (layout.deleteFn key (blockNumber ptr))

/-- A trivial layout over the unit entity type. -/
def unitLayout : Layout Unit :=
  ⟨fun _ _ _ => .ok none, fun _ _ _ => .ok (), fun _ _ _ => .ok (),
    fun _ _ => .ok 0⟩

/-- A connection for subgraph "A" over the trivial layout. -/
def connA : Connection Unit :=
  ⟨unitLayout, "A"⟩

/-- A key referencing subgraph "B". -/
def keyB : EntityKey :=
  ⟨"B", "Thing", "1"⟩

/-- A key referencing subgraph "A". -/
def keyA : EntityKey :=
  ⟨"A", "Thing", "1"⟩

/-! ## Store backend: subgraph metadata operations
(`store/postgres/src/metadata.rs`, lines 429-650)

The `subgraphs.*` metadata tables are modelled as lists of rows; the
diesel `first` combinator is `List.find?`, an UPDATE maps the matching
rows in place, an INSERT appends, a DELETE filters. -/

/-- A row of `subgraphs.subgraph`. -/
structure SubgraphRow where
  id : String
  name : String
  current_version : Option String
  pending_version : Option String
  created_at : Nat
deriving DecidableEq, Repr

/-- A row of `subgraphs.subgraph_version`. -/
structure VersionRow where
  id : String
  subgraph : String
  deployment : String
  created_at : Nat
deriving DecidableEq, Repr

/-- A row of `subgraphs.subgraph_deployment_assignment`; `id` is the
deployment id. -/
structure AssignmentRow where
  id : String
  node_id : String
  cost : Nat
deriving DecidableEq, Repr

/-- The metadata tables the embedded lifecycle operations touch. -/
structure MetaState where
  subgraphs : List SubgraphRow
  versions : List VersionRow
  deployments : List DeploymentRow
  assignments : List AssignmentRow
deriving DecidableEq, Repr

/-- `SubgraphVersionSwitchingMode` from the graph prelude. -/
inductive SubgraphVersionSwitchingMode where
  | instant
  | synced
deriving DecidableEq, Repr

/-- The NOT EXISTS subquery of `remove_unused_assignments`: an assignment
is used when some subgraph has a current or pending version whose
deployment is the assignment's id (a NULL current or pending version
matches no version id). -/
def assignmentUsed (st : MetaState) (a : AssignmentRow) : Bool :=
  st.subgraphs.any fun s =>
    st.versions.any fun v =>
      (s.current_version == some v.id || s.pending_version == some v.id) &&
        v.deployment == a.id

/-- `remove_unused_assignments`: delete every assignment for a deployment
that is neither the current nor the pending version of any subgraph;
return the deleted assignment ids. -/
def remove_unused_assignments (st : MetaState) : MetaState × List String :=
  (⟨st.subgraphs, st.versions, st.deployments,
      st.assignments.filter (assignmentUsed st)⟩,
    (st.assignments.filter fun a => !assignmentUsed st a).map fun a => a.id)

/-- The synced-current query of `create_subgraph_version`: join
`subgraph_deployment` with `subgraph_version` on the deployment id,
filter on the given current version id, and read `synced`; a missing
version or deployment row (`optional`) and a missing current version both
count as not synced. -/
def version_current_synced (st : MetaState) (currentVersion : Option String) :
    Bool :=
  match currentVersion with
  | some cv =>
    ((st.versions.find? fun v => v.id == cv).bind fun v =>
        (st.deployments.find? fun d => d.id == v.deployment).map fun d =>
          d.synced).getD
      false
  | none => false

/-- Whether the subgraph called `name` has a synced current version —
the condition `create_subgraph_version` switches on, recomputed from the
state (used to state the claim). -/
def current_exists_and_synced (st : MetaState) (name : String) : Bool :=
  version_current_synced st
    ((st.subgraphs.find? fun s => s.name == name).bind fun s => s.current_version)

/-- The version switch of `create_subgraph_version` step 5 on one subgraph
row: `Instant`, or `Synced` without a synced current version, makes the
new version current and clears pending; `Synced` with a synced current
version makes the new version pending and leaves current untouched. -/
def switchSubgraphRow (mode : SubgraphVersionSwitchingMode) (synced : Bool)
    (freshVersionId : String) (s : SubgraphRow) : SubgraphRow :=
  match mode, synced with
  | .synced, true => { s with pending_version := some freshVersionId }
  | _, _ =>
    { s with current_version := some freshVersionId, pending_version := none }

/-- `create_subgraph_version(name, id, node_id, mode)`. The two fresh
entity ids produced by `generate_entity_id` and the insertion timestamp
are passed as parameters. Returns the new state, whether a new assignment
was inserted, and the ids of the assignments removed by the cleanup. -/
def create_subgraph_version (st : MetaState) (name : String) (id : String)
    (node_id : String) (mode : SubgraphVersionSwitchingMode)
    (created_at : Nat) (freshSubgraphId freshVersionId : String) :
    MetaState × Bool × List String :=
  let info := st.subgraphs.find? fun s => s.name == name
  let subgraphId := match info with
    | some s0 => s0.id
    | none => freshSubgraphId
  let currentVersion : Option String := match info with
    | some s0 => s0.current_version
    | none => none
  let subgraphs1 : List SubgraphRow := match info with
    | some _ => st.subgraphs
    | none => st.subgraphs ++ [⟨freshSubgraphId, name, none, none, created_at⟩]
  let synced := version_current_synced st currentVersion
  let versions1 : List VersionRow :=
    st.versions ++ [⟨freshVersionId, subgraphId, id, created_at⟩]
  let newAssignment := (st.assignments.find? fun a => a.id == id).isNone
  let assignments1 : List AssignmentRow :=
    if newAssignment then st.assignments ++ [⟨id, node_id, 1⟩]
    else st.assignments
  let subgraphs2 := subgraphs1.map fun s =>
    if s.id == subgraphId then switchSubgraphRow mode synced freshVersionId s
    else s
  let res := remove_unused_assignments
    ⟨subgraphs2, versions1, st.deployments, assignments1⟩
  (res.1, newAssignment, res.2)

/-- `remove_subgraph(name)`: look up the subgraph id for the name; if
present, delete its versions, delete the subgraph row, and clean up
orphan assignments; if absent, do nothing and succeed with no changes. -/
def remove_subgraph (st : MetaState) (name : String) : MetaState × List String :=
  match st.subgraphs.find? fun s => s.name == name with
  | some s0 =>
    remove_unused_assignments
      ⟨st.subgraphs.filter fun s => !(s.id == s0.id),
        st.versions.filter fun v => !(v.subgraph == s0.id),
        st.deployments, st.assignments⟩
  | none => (st, [])

/-- Error type of the provider-level `remove`. -/
inductive SubgraphProviderError where
  | nameNotFound (name : String)
deriving DecidableEq, Repr

/-- Modelled from the spec: the name-checking `remove(name)` of the
Lifecycle Provider (graph-core `SubgraphProviderWithNames::remove`) is not
under src — only its test is (core/tests/tests.rs lines 263-267, removing
a subgraph that is not deployed is an error). Per the spec, `remove` of an
unknown name fails; for a known name it delegates to the store-level
removal, `remove_subgraph` above, which is embedded from source. -/
def provider_remove (st : MetaState) (name : String) :
    Except SubgraphProviderError (MetaState × List String) :=
  match st.subgraphs.find? fun s => s.name == name with
  | none => .error (.nameNotFound name)
  | some _ => .ok (remove_subgraph st name)

/-- The empty metadata state. -/
def emptyMeta : MetaState :=
  ⟨[], [], [], []⟩

/-! ## WASM host ABI: encoders and decoders
(`thegraph-runtime/src/asc_abi/to_from.rs`)

The AssemblyScript heap is collapsed: wherever the code stores an
`AscPtr` payload obtained from `heap.asc_new` and later dereferences it
with `heap.asc_get`, the model stores the pointed-at object itself.
Decoding a payload whose shape does not match the discriminant would, in
the real code, reinterpret guest memory at a type other than the one it
holds; such values never arise from the encoder and the model maps them
to `panicked`. -/

/-- Map over a non-panicking result. -/
def PanicOr.map {α β : Type} (f : α → β) : PanicOr α → PanicOr β
  | .panicked => .panicked
  | .ok a => .ok (f a)

/-- Whether `c` is a Unicode scalar value (the code points a Rust `char`
ranges over: below 0x110000 and not a surrogate). -/
def scalarOk (c : Nat) : Bool :=
  decide (c < 0x110000) && !(decide (0xD800 ≤ c) && decide (c < 0xE000))

/-- UTF-16 code units of one scalar value (`str::encode_utf16`):
values below 0x10000 are one unit, the rest a surrogate pair. -/
def utf16EncodeChar (c : Nat) : List Nat :=
  if c < 0x10000 then [c]
  else [0xD800 + (c - 0x10000) / 0x400, 0xDC00 + (c - 0x10000) % 0x400]

/-- `str::encode_utf16().collect()`: UTF-16 code units of a string. -/
def utf16Encode (s : List Nat) : List Nat :=
  (s.map utf16EncodeChar).flatten

/-- UTF-16 decoding as `String::from_utf16` performs it: a lone high
surrogate, a lone low surrogate, or a truncated pair is an error —
surfaced by the code's `expect` as a panic. -/
def utf16Decode : List Nat → PanicOr (List Nat)
  | [] => .ok []
  | u :: rest =>
    if u < 0xD800 ∨ 0xE000 ≤ u then
      (utf16Decode rest).map fun cs => u :: cs
    else if u < 0xDC00 then
      match rest with
      | u2 :: rest2 =>
        if 0xDC00 ≤ u2 ∧ u2 < 0xE000 then
          (utf16Decode rest2).map fun cs =>
            (0x10000 + (u - 0xD800) * 0x400 + (u2 - 0xDC00)) :: cs
        else .panicked
      | [] => .panicked
    else .panicked

/-- `FromAscObj<ArrayBuffer<T>> for [T; 20]`: `assert_eq!` that the
buffer holds exactly 20 elements — a mismatch is a panic. -/
def fromAscArrayBuffer20 (content : List Nat) : PanicOr (List Nat) :=
  if content.length = 20 then .ok content else .panicked

/-- `FromAscObj<ArrayBuffer<T>> for [T; 4]`: `assert_eq!` that the
buffer holds exactly 4 elements — a mismatch is a panic. -/
def fromAscArrayBuffer4 (content : List Nat) : PanicOr (List Nat) :=
  if content.length = 4 then .ok content else .panicked

/-- `FromAscObj<AscString> for String`:
`String::from_utf16(&asc_string.content).expect(..)` — panics when the
content is not valid UTF-16. -/
def string_from_asc (units : List Nat) : PanicOr (List Nat) :=
  utf16Decode units

/-- Discriminant of `AscEnum<TokenDiscr>` (declared in class.rs, outside
src; its variants are fixed by the `get_discr` dispatch in to_from.rs). -/
inductive TokenDiscr where
  | address
  | fixedBytes
  | bytes
  | int
  | uint
  | bool
  | string
  | fixedArray
  | array
deriving DecidableEq, Repr

/-- AssemblyScript heap objects reachable from a token payload, with the
pointer indirection collapsed: `bufU8`/`bufU64` are `ArrayBuffer<u8>` and
`ArrayBuffer<u64>` contents, `str` is an `AscString`'s UTF-16 code units,
`arr` an `Array<AscPtr<_>>` with its elements inlined, `word` a raw u64
enum payload (used by Bool), and `enum` an `AscEnum<TokenDiscr>`. -/
inductive AscVal where
  | bufU8 (content : List Nat)
  | bufU64 (content : List Nat)
  | str (units : List Nat)
  | arr (elems : List AscVal)
  | word (n : Nat)
  | enum (discr : TokenDiscr) (payload : AscVal)

mutual

/-- `ToAscObj<AscEnum<TokenDiscr>> for ethabi::Token`: encode a token as
a discriminant plus payload; `FixedBytes`/`Bytes` share the byte-buffer
payload, `Int`/`Uint` the u64-limb payload, `FixedArray`/`Array` the
element-array payload, `Bool` is the raw u64. -/
def token_to_asc : EthToken → AscVal
  | .address a => .enum .address (.bufU8 a)
  | .fixedBytes b => .enum .fixedBytes (.bufU8 b)
  | .bytes b => .enum .bytes (.bufU8 b)
  | .int u => .enum .int (.bufU64 u)
  | .uint u => .enum .uint (.bufU64 u)
  | .bool b => .enum .bool (.word (if b then 1 else 0))
  | .string s => .enum .string (.str (utf16Encode s))
  | .fixedArray ts => .enum .fixedArray (.arr (tokens_to_asc ts))
  | .array ts => .enum .array (.arr (tokens_to_asc ts))

/-- Encode each token of a token array (`ToAscObj<Array<AscPtr<C>>>`). -/
def tokens_to_asc : List EthToken → List AscVal
  | [] => []
  | t :: ts => token_to_asc t :: tokens_to_asc ts

end

mutual

/-- `FromAscObj<AscEnum<TokenDiscr>> for ethabi::Token`: decode by
discriminant. The `Uint` discriminant is decoded as `Token::Int` — the
big integer is signed on the host side. Child decoders panic on size or
encoding mismatches. -/
def token_from_asc : AscVal → PanicOr EthToken
  | .enum .bool (.word n) => .ok (.bool (n != 0))
  | .enum .address (.bufU8 c) => (fromAscArrayBuffer20 c).map .address
  | .enum .fixedBytes (.bufU8 c) => .ok (.fixedBytes c)
  | .enum .bytes (.bufU8 c) => .ok (.bytes c)
  | .enum .int (.bufU64 c) => (fromAscArrayBuffer4 c).map .int
  | .enum .uint (.bufU64 c) => (fromAscArrayBuffer4 c).map .int
  | .enum .string (.str units) => (string_from_asc units).map .string
  | .enum .fixedArray (.arr es) => (tokens_from_asc es).map .fixedArray
  | .enum .array (.arr es) => (tokens_from_asc es).map .array
  | _ => .panicked

/-- Decode each element of a token array
(`FromAscObj<Array<AscPtr<C>>>`); any child panic propagates. -/
def tokens_from_asc : List AscVal → PanicOr (List EthToken)
  | [] => .ok []
  | v :: vs =>
    match token_from_asc v, tokens_from_asc vs with
    | .ok t, .ok ts => .ok (t :: ts)
    | _, _ => .panicked

end

mutual

/-- Well-formedness of a host token: the shape invariants the Rust types
guarantee — an `H160` holds 20 bytes, a `U256` four u64 limbs, a
`String` Unicode scalar values. -/
def tokenWf : EthToken → Bool
  | .address a => a.length == 20
  | .fixedBytes _ => true
  | .bytes _ => true
  | .int u => u.length == 4
  | .uint u => u.length == 4
  | .bool _ => true
  | .string s => s.all scalarOk
  | .fixedArray ts => tokensWf ts
  | .array ts => tokensWf ts

/-- Well-formedness of every token in a list. -/
def tokensWf : List EthToken → Bool
  | [] => true
  | t :: ts => tokenWf t && tokensWf ts

end

mutual

/-- Replace every `Uint` variant by `Int` with the same limbs — the image
of the decode-encode round trip. -/
def normToken : EthToken → EthToken
  | .address a => .address a
  | .fixedBytes b => .fixedBytes b
  | .bytes b => .bytes b
  | .int u => .int u
  | .uint u => .int u
  | .bool b => .bool b
  | .string s => .string s
  | .fixedArray ts => .fixedArray (normTokens ts)
  | .array ts => .array (normTokens ts)

/-- `normToken` on every element. -/
def normTokens : List EthToken → List EthToken
  | [] => []
  | t :: ts => normToken t :: normTokens ts

end

mutual

/-- Whether a token contains no `Uint` variant. -/
def uintFree : EthToken → Bool
  | .address _ => true
  | .fixedBytes _ => true
  | .bytes _ => true
  | .int _ => true
  | .uint _ => false
  | .bool _ => true
  | .string _ => true
  | .fixedArray ts => uintsFree ts
  | .array ts => uintsFree ts

/-- Whether no token of a list contains a `Uint` variant. -/
def uintsFree : List EthToken → Bool
  | [] => true
  | t :: ts => uintFree t && uintsFree ts

end

/-- A well-formed, `Uint`-less sample token touching the address, string,
u256, bool and nested-array bridges. -/
def sampleToken : EthToken :=
  .fixedArray
    [.address (List.replicate 20 0), .string [104, 0x10400],
      .int [1, 2, 3, 4], .bool true]

/-! ## Theorems settling the claims, with their helper lemmas -/

/-! ## Theorems for the claims about the adapter and the counters -/

/-- C1 counterexample: with a concrete call request, a deliberate revert
and a transport failure produce the very same result value,
`Except.error EthereumContractCallError.Failed` — contradicting the claim
that the two failure causes never map to the same result value (and that
a revert surfaces as a null-like success). -/
theorem contract_call_revert_equals_transport :
    contract_call constOkFunction .reverted =
        contract_call constOkFunction .transportFailed ∧
      contract_call constOkFunction .reverted = .error .Failed :=
  ⟨rfl, rfl⟩

/-- C1 (amended): `contract_call` collapses every failure cause — a
deliberate revert, a transport failure, and an output-decode failure — to
the single error value `EthereumContractCallError::Failed`; it does not
distinguish a revert from a transport failure and never surfaces a revert
as a success. -/
theorem contract_call_collapses_failures (f : EthFunction) (out : List Nat)
    (h : f.decodeOutput out = .error ()) :
    contract_call f .reverted = .error .Failed ∧
      contract_call f .transportFailed = .error .Failed ∧
      contract_call f (.success out) = .error .Failed := by
  refine ⟨rfl, rfl, ?_⟩
  simp only [contract_call, h]

/-- Witness for the amended C1 theorem at a concrete call request. -/
theorem contract_call_collapses_failures_witness :
    constErrFunction.decodeOutput [] = .error () ∧
      (contract_call constErrFunction .reverted = .error .Failed ∧
        contract_call constErrFunction .transportFailed = .error .Failed ∧
        contract_call constErrFunction (.success []) = .error .Failed) :=
  ⟨rfl, contract_call_collapses_failures constErrFunction [] rfl⟩

/-- C3 counterexample: with the stored count at the sentinel `-1` and a
delta of `0` (and, say, 7 open rows), `update_entity_count` leaves the
sentinel in place instead of recounting — the claim's recount clause fails
for delta = 0 because the function returns early without running the SQL
statement. -/
theorem update_entity_count_zero_delta_skips_recount :
    update_entity_count 0 (some (-1)) 7 = some (-1) ∧
      ¬update_entity_count 0 (some (-1)) 7 = some 7 := by
  exact ⟨rfl, by decide⟩

/-- C3 (amended): for every nonzero delta, `update_entity_count(delta)`
adds the delta to the stored count, and recounts — sets the count to the
`COUNT(*)` result in the same statement — when the stored count is NULL or
the sentinel `-1`; for delta = 0 the function is a no-op and the stored
count (sentinel included) is left untouched. -/
theorem update_entity_count_spec (delta ec trueCount : Int) (stored : Option Int)
    (h : delta ≠ 0) :
    update_entity_count delta none trueCount = some trueCount ∧
      update_entity_count delta (some (-1)) trueCount = some trueCount ∧
      (ec ≠ -1 → update_entity_count delta (some ec) trueCount = some (ec + delta)) ∧
      update_entity_count 0 stored trueCount = stored := by
  refine ⟨?_, ?_, fun hec => ?_, ?_⟩
  · simp [update_entity_count, h]
  · simp [update_entity_count, h]
  · simp [update_entity_count, h, hec]
  · simp [update_entity_count]

/-- Witness for the amended C3 theorem at a concrete delta and counts. -/
theorem update_entity_count_spec_witness :
    (3 : Int) ≠ 0 ∧ update_entity_count 3 (some (-1)) 7 = some 7 :=
  ⟨by decide, (update_entity_count_spec 3 5 7 (some 2) (by decide)).2.1⟩

/-- C7: `forward_block_ptr` sets the latest block hash and number to the
pointer's and zeroes `current_reorg_depth`; `revert_block_ptr` sets the
latest block hash and number, increments `reorg_count` and
`current_reorg_depth` by one, and raises `max_reorg_depth` to the maximum
of the incremented `current_reorg_depth` and the old `max_reorg_depth`. -/
theorem block_ptr_moves_spec (r : DeploymentRow) (ptr : BlockPtr) :
    (forwardBlockPtrRow r ptr).latest_ethereum_block_hash = some ptr.hash ∧
      (forwardBlockPtrRow r ptr).latest_ethereum_block_number = some ptr.number ∧
      (forwardBlockPtrRow r ptr).current_reorg_depth = 0 ∧
      (revertBlockPtrRow r ptr).latest_ethereum_block_hash = some ptr.hash ∧
      (revertBlockPtrRow r ptr).latest_ethereum_block_number = some ptr.number ∧
      (revertBlockPtrRow r ptr).reorg_count = r.reorg_count + 1 ∧
      (revertBlockPtrRow r ptr).current_reorg_depth = r.current_reorg_depth + 1 ∧
      (revertBlockPtrRow r ptr).max_reorg_depth =
        max ((revertBlockPtrRow r ptr).current_reorg_depth) r.max_reorg_depth := by
  simp [forwardBlockPtrRow, revertBlockPtrRow]

/-- C8 counterexample: the row with all three reorg counters at `-1` (the
columns are signed SQL integers) satisfies the claimed predicate, but
after `forward_block_ptr` — which zeroes `current_reorg_depth` — the
predicate `reorg_count >= current_reorg_depth` fails. -/
theorem counter_inv_not_preserved_by_forward :
    CounterInv negCounterRow ∧ ¬CounterInv (forwardBlockPtrRow negCounterRow ptr0) := by
  constructor
  · exact ⟨by decide, by decide⟩
  · intro hinv
    exact absurd hinv.1 (by decide)

/-- C8 (amended): strengthened with `0 <= current_reorg_depth`, the
reorg-counter predicate is an invariant: every row satisfying it still
satisfies it after `forward_block_ptr` and after `revert_block_ptr`. -/
theorem counter_inv_nonneg_preserved (r : DeploymentRow) (ptr : BlockPtr)
    (h : CounterInvNonneg r) :
    CounterInvNonneg (forwardBlockPtrRow r ptr) ∧
      CounterInvNonneg (revertBlockPtrRow r ptr) := by
  obtain ⟨h0, h1, h2⟩ := h
  constructor
  · refine ⟨le_refl 0, ?_, ?_⟩ <;> simp [forwardBlockPtrRow] <;> omega
  · refine ⟨?_, ?_, ?_⟩ <;> simp [revertBlockPtrRow] <;> omega

/-- Witness for the amended C8 theorem at a concrete row and pointer. -/
theorem counter_inv_nonneg_preserved_witness :
    CounterInvNonneg zeroCounterRow ∧
      (CounterInvNonneg (forwardBlockPtrRow zeroCounterRow ptr0) ∧
        CounterInvNonneg (revertBlockPtrRow zeroCounterRow ptr0)) :=
  ⟨⟨by decide, by decide, by decide⟩,
    counter_inv_nonneg_preserved zeroCounterRow ptr0 ⟨by decide, by decide, by decide⟩⟩

theorem add_wait_time_state (s : PoolEventHandlerState) (now d : Nat) :
    (add_wait_time s now d).1.waitSamples = s.waitSamples ++ [d] ∧
      (add_wait_time s now d).1.lastLog =
        (if s.lastLog + 10 < now then now else s.lastLog) := by
  by_cases h : s.lastLog + 10 < now <;> simp [add_wait_time, h]

theorem add_wait_time_logged (s : PoolEventHandlerState) (now d : Nat) :
    (add_wait_time s now d).2 = decide (s.lastLog + 10 < now) := by
  by_cases h : s.lastLog + 10 < now <;>
    simp [add_wait_time, movingAverage, h]

theorem runWaitEvents_samples (events : List (Nat × Nat)) :
    ∀ s : PoolEventHandlerState,
      (runWaitEvents s events).1.waitSamples =
        s.waitSamples ++ events.map (fun e => e.2) := by
  induction events with
  | nil => intro s; simp [runWaitEvents]
  | cons e rest ih =>
    intro s
    obtain ⟨now, d⟩ := e
    have hs := (add_wait_time_state s now d).1
    simp [runWaitEvents, ih, hs]

theorem runWaitEvents_chain (events : List (Nat × Nat)) :
    ∀ s : PoolEventHandlerState,
      List.Chain' (fun a b => a + 10 < b)
        (s.lastLog :: loggedTimes (runWaitEvents s events).2) := by
  induction events with
  | nil => intro s; simp [runWaitEvents, loggedTimes]
  | cons e rest ih =>
    intro s
    obtain ⟨now, d⟩ := e
    have hlog := add_wait_time_logged s now d
    have hlast := (add_wait_time_state s now d).2
    by_cases h : s.lastLog + 10 < now
    · have hchain := ih (add_wait_time s now d).1
      rw [hlast, if_pos h] at hchain
      simp only [runWaitEvents, loggedTimes, List.filter_cons, hlog, h,
        decide_eq_true_eq, if_pos, List.map_cons]
      exact List.Chain'.cons h hchain
    · have hchain := ih (add_wait_time s now d).1
      rw [hlast, if_neg h] at hchain
      simp only [runWaitEvents, loggedTimes, List.filter_cons, hlog, h,
        List.map_cons]
      exact hchain

/-- C9: over any sequence of wait-time recordings, the moving statistics
receive every recorded duration (the moving average is updated on every
recording), while log lines are throttled: successive logged emissions —
starting from the handler's construction time — are each more than 10
seconds after the previous one, so a recording triggers a log line only
if more than 10 seconds have elapsed since the previous logged
emission. -/
theorem wait_time_logging_throttled (s : PoolEventHandlerState)
    (events : List (Nat × Nat)) :
    (runWaitEvents s events).1.waitSamples =
        s.waitSamples ++ events.map (fun e => e.2) ∧
      List.Chain' (fun a b => a + 10 < b)
        (s.lastLog :: loggedTimes (runWaitEvents s events).2) :=
  ⟨runWaitEvents_samples events s, runWaitEvents_chain events s⟩

/-- C10: every entity operation on a store `Connection` is confined to the
connection's own subgraph: with a key referencing a different subgraph,
`find`, `insert`, `update`, and `delete` all panic instead of returning a
result, and with a key referencing the connection's subgraph the panic
branch is not taken — each operation returns the dispatched layout
result. -/
theorem connection_subgraph_confinement {ε : Type} (c : Connection ε)
    (k1 k2 : EntityKey) (e : ε) (ptr : BlockPtr) (block : Int)
    (h1 : k1.subgraph_id ≠ c.subgraph) (h2 : k2.subgraph_id = c.subgraph) :
    (c.find k1 block = .panicked ∧ c.insert k1 e ptr = .panicked ∧
        c.update k1 e ptr = .panicked ∧ c.delete k1 ptr = .panicked) ∧
      (c.find k2 block = .ok (c.data.findFn k2.entity_type k2.entity_id block) ∧
        c.insert k2 e ptr = .ok (c.data.insertFn k2 e (blockNumber ptr)) ∧
        c.update k2 e ptr = .ok (c.data.updateFn k2 e (blockNumber ptr)) ∧
        c.delete k2 ptr = .ok (c.data.deleteFn k2 (blockNumber ptr))) := by
  constructor
  · refine ⟨?_, ?_, ?_, ?_⟩ <;>
      simp [Connection.find, Connection.insert, Connection.update,
        Connection.delete, Connection.layout_for, h1, Ne.symm h1]
  · refine ⟨?_, ?_, ?_, ?_⟩ <;>
      simp [Connection.find, Connection.insert, Connection.update,
        Connection.delete, Connection.layout_for, h2]

/-- Witness for the C10 theorem at a concrete connection and keys. -/
theorem connection_subgraph_confinement_witness :
    keyB.subgraph_id ≠ connA.subgraph ∧ keyA.subgraph_id = connA.subgraph ∧
      connA.find keyB 0 = .panicked ∧ connA.find keyA 0 = .ok (.ok none) :=
  have h := connection_subgraph_confinement connA keyB keyA () ptr0 0
    (by decide) rfl
  ⟨by decide, rfl, h.1.1, h.2.1⟩

/-- A `find?` over a mapped list whose map function does not change which
elements the predicate accepts returns the mapped `find?` of the original
list. -/
theorem find?_map_of_pred_inv {α : Type} (l : List α) (g : α → α)
    (p : α → Bool) (h : ∀ a, p (g a) = p a) :
    (l.map g).find? p = (l.find? p).map g := by
  rw [List.find?_map]
  have hp : p ∘ g = p := funext h
  rw [hp]

/-- The version switch never changes a subgraph row's name. -/
theorem switchSubgraphRow_name (mode : SubgraphVersionSwitchingMode)
    (synced : Bool) (freshVersionId : String) (s : SubgraphRow) :
    (switchSubgraphRow mode synced freshVersionId s).name = s.name := by
  cases mode <;> cases synced <;> rfl

/-- C4: removing a subgraph name that does not exist in the store returns
an error and leaves the subgraph, version, and assignment state unchanged;
the store-level `remove_subgraph` also leaves the state unchanged (though
it reports success with no changes). -/
theorem remove_unknown_name_fails (st : MetaState) (name : String)
    (h : st.subgraphs.find? (fun s => s.name == name) = none) :
    provider_remove st name = .error (.nameNotFound name) ∧
      remove_subgraph st name = (st, []) := by
  constructor
  · simp [provider_remove, h]
  · simp [remove_subgraph, h]

/-- Witness for the C4 theorem on the empty store. -/
theorem remove_unknown_name_fails_witness :
    emptyMeta.subgraphs.find? (fun s => s.name == "org/name") = none ∧
      (provider_remove emptyMeta "org/name" =
          .error (.nameNotFound "org/name") ∧
        remove_subgraph emptyMeta "org/name" = (emptyMeta, [])) :=
  ⟨rfl, remove_unknown_name_fails emptyMeta "org/name" rfl⟩

/-- C6: after `create_subgraph_version(name, id, node, mode)`, the
subgraph row for `name` exists, and: with mode `Instant`, or mode
`Synced` while the subgraph has no synced current version, the newly
inserted version is its current version and its pending version is
cleared to NULL; with mode `Synced` while the current version's
deployment is synced, the newly inserted version is its pending version
and its current version is unchanged. -/
theorem create_subgraph_version_switches (st : MetaState)
    (name id node_id : String) (mode : SubgraphVersionSwitchingMode)
    (created_at : Nat) (freshSubgraphId freshVersionId : String) :
    (((create_subgraph_version st name id node_id mode created_at
            freshSubgraphId freshVersionId).1.subgraphs.find?
          fun s => s.name == name).map
        fun s => (s.current_version, s.pending_version)) =
      some
        (match mode, current_exists_and_synced st name with
          | .synced, true =>
            ((st.subgraphs.find? fun s => s.name == name).bind
                fun s => s.current_version,
              some freshVersionId)
          | _, _ => (some freshVersionId, none)) := by
  cases hinfo : st.subgraphs.find? fun s => s.name == name with
  | none =>
    have hces : current_exists_and_synced st name = false := by
      simp [current_exists_and_synced, hinfo, version_current_synced]
    simp only [create_subgraph_version, hinfo, remove_unused_assignments]
    have hpres : ∀ s : SubgraphRow,
        ((if s.id == freshSubgraphId then
            switchSubgraphRow mode (version_current_synced st none)
              freshVersionId s
          else s).name == name) = (s.name == name) := by
      intro s
      by_cases hid : s.id == freshSubgraphId <;>
        simp [hid, switchSubgraphRow_name]
    rw [find?_map_of_pred_inv
      (st.subgraphs ++
        [(⟨freshSubgraphId, name, none, none, created_at⟩ : SubgraphRow)])
      (fun s => if s.id == freshSubgraphId then
        switchSubgraphRow mode (version_current_synced st none)
          freshVersionId s
        else s)
      (fun s => s.name == name) hpres]
    rw [List.find?_append, hinfo, hces]
    cases mode <;>
      simp [List.find?, switchSubgraphRow, version_current_synced]
  | some s0 =>
    have hces : current_exists_and_synced st name =
        version_current_synced st s0.current_version := by
      simp [current_exists_and_synced, hinfo]
    simp only [create_subgraph_version, hinfo, remove_unused_assignments]
    have hpres : ∀ s : SubgraphRow,
        ((if s.id == s0.id then
            switchSubgraphRow mode (version_current_synced st s0.current_version)
              freshVersionId s
          else s).name == name) = (s.name == name) := by
      intro s
      by_cases hid : s.id == s0.id <;> simp [hid, switchSubgraphRow_name]
    rw [find?_map_of_pred_inv st.subgraphs
      (fun s => if s.id == s0.id then
        switchSubgraphRow mode (version_current_synced st s0.current_version)
          freshVersionId s
        else s)
      (fun s => s.name == name) hpres]
    rw [hinfo, hces]
    cases mode <;> cases hvc : version_current_synced st s0.current_version <;>
      simp [switchSubgraphRow, hinfo]

/-! Theorems about the ABI bridges. -/

/-- Decoding the encoding of one scalar value consumes exactly its code
units. -/
theorem utf16Decode_encodeChar (c : Nat) (h : scalarOk c = true)
    (l : List Nat) :
    utf16Decode (utf16EncodeChar c ++ l) =
      (utf16Decode l).map fun cs => c :: cs := by
  have hc : c < 0x110000 ∧ (c < 0xD800 ∨ 0xE000 ≤ c) := by
    simpa [scalarOk] using h
  by_cases hsmall : c < 0x10000
  · simp only [utf16EncodeChar, if_pos hsmall, List.cons_append,
      List.nil_append]
    rw [utf16Decode.eq_def]
    simp only []
    rw [if_pos hc.2]
  · have hdiv : (c - 0x10000) / 0x400 < 0x400 := by omega
    have hmod : (c - 0x10000) % 0x400 < 0x400 := Nat.mod_lt _ (by omega)
    have hval : 0x10000 + (0xD800 + (c - 0x10000) / 0x400 - 0xD800) * 0x400 +
        (0xDC00 + (c - 0x10000) % 0x400 - 0xDC00) = c := by
      omega
    simp only [utf16EncodeChar, if_neg hsmall, List.cons_append,
      List.nil_append]
    rw [utf16Decode.eq_def]
    simp only []
    rw [if_neg (by omega), if_pos (by omega), if_pos (by omega), hval]

/-- UTF-16 round trip: decoding the encoding of a list of Unicode scalar
values succeeds and returns the original list. -/
theorem utf16_roundtrip (s : List Nat) (h : s.all scalarOk = true) :
    utf16Decode (utf16Encode s) = .ok s := by
  induction s with
  | nil => simp [utf16Encode, utf16Decode]
  | cons c cs ih =>
    rw [List.all_cons, Bool.and_eq_true] at h
    have henc : utf16Encode (c :: cs) = utf16EncodeChar c ++ utf16Encode cs := by
      simp [utf16Encode]
    rw [henc, utf16Decode_encodeChar c h.1, ih h.2, PanicOr.map]

mutual

/-- Round trip of one well-formed token: decoding its encoding succeeds
and yields the token with `Uint` renamed to `Int`. -/
theorem token_roundtrip (t : EthToken) (h : tokenWf t = true) :
    token_from_asc (token_to_asc t) = .ok (normToken t) := by
  cases t with
  | address a =>
    have ha : a.length = 20 := by simpa [tokenWf] using h
    simp [token_to_asc, token_from_asc, fromAscArrayBuffer20, ha,
      PanicOr.map, normToken]
  | fixedBytes b => simp [token_to_asc, token_from_asc, normToken]
  | bytes b => simp [token_to_asc, token_from_asc, normToken]
  | int u =>
    have hu : u.length = 4 := by simpa [tokenWf] using h
    simp [token_to_asc, token_from_asc, fromAscArrayBuffer4, hu,
      PanicOr.map, normToken]
  | uint u =>
    have hu : u.length = 4 := by simpa [tokenWf] using h
    simp [token_to_asc, token_from_asc, fromAscArrayBuffer4, hu,
      PanicOr.map, normToken]
  | bool b => cases b <;> simp [token_to_asc, token_from_asc, normToken]
  | string s =>
    have hs : s.all scalarOk = true := by simpa [tokenWf] using h
    simp [token_to_asc, token_from_asc, string_from_asc,
      utf16_roundtrip s hs, PanicOr.map, normToken]
  | fixedArray ts =>
    have hts : tokensWf ts = true := by simpa [tokenWf] using h
    simp [token_to_asc, token_from_asc, tokens_roundtrip ts hts,
      PanicOr.map, normToken]
  | array ts =>
    have hts : tokensWf ts = true := by simpa [tokenWf] using h
    simp [token_to_asc, token_from_asc, tokens_roundtrip ts hts,
      PanicOr.map, normToken]

/-- Round trip of a list of well-formed tokens. -/
theorem tokens_roundtrip (ts : List EthToken) (h : tokensWf ts = true) :
    tokens_from_asc (tokens_to_asc ts) = .ok (normTokens ts) := by
  cases ts with
  | nil => simp [tokens_to_asc, tokens_from_asc, normTokens]
  | cons t ts =>
    rw [tokensWf, Bool.and_eq_true] at h
    rw [tokens_to_asc, tokens_from_asc, token_roundtrip t h.1,
      tokens_roundtrip ts h.2, normTokens]

end

mutual

/-- On `Uint`-less tokens the round-trip image is the identity. -/
theorem normToken_id (t : EthToken) (h : uintFree t = true) :
    normToken t = t := by
  cases t with
  | fixedArray ts =>
    have hts : uintsFree ts = true := by simpa [uintFree] using h
    rw [normToken, normTokens_id ts hts]
  | array ts =>
    have hts : uintsFree ts = true := by simpa [uintFree] using h
    rw [normToken, normTokens_id ts hts]
  | uint u => simp [uintFree] at h
  | _ => rw [normToken]

/-- On lists of `Uint`-less tokens `normTokens` is the identity. -/
theorem normTokens_id (ts : List EthToken) (h : uintsFree ts = true) :
    normTokens ts = ts := by
  cases ts with
  | nil => rw [normTokens]
  | cons t ts =>
    rw [uintsFree, Bool.and_eq_true] at h
    rw [normTokens, normToken_id t h.1, normTokens_id ts h.2]

end

/-- C2 counterexample: the 20-byte buffer decoder panics on a 19-byte
buffer instead of returning a HostExportError result, and the string
decoder panics on a lone high surrogate — contradicting the claim that
decoders never panic. -/
theorem decoders_panic_counterexample :
    fromAscArrayBuffer20 (List.replicate 19 0) = .panicked ∧
      string_from_asc [0xD800] = .panicked := by
  constructor
  · simp [fromAscArrayBuffer20]
  · rw [string_from_asc, utf16Decode]
    rw [if_neg (by omega), if_pos (by omega)]

/-- C2 (amended): every host-ABI decoder validates the size and encoding
of its input — an address buffer must be exactly 20 bytes, a U256 buffer
exactly 4 u64 words, a string valid UTF-16 — but a mismatch is a panic
(`assert_eq!` / `expect`), not a returned HostExportError: the buffer
decoders panic exactly when the length is wrong, and the string decoder
panics on an unpaired surrogate while accepting every well-formed UTF-16
encoding. -/
theorem decoders_validate_and_panic (b : List Nat) (s : List Nat)
    (hs : s.all scalarOk = true) :
    (fromAscArrayBuffer20 b =
        if b.length = 20 then .ok b else .panicked) ∧
      (fromAscArrayBuffer4 b =
        if b.length = 4 then .ok b else .panicked) ∧
      string_from_asc [0xD800] = .panicked ∧
      string_from_asc (utf16Encode s) = .ok s := by
  refine ⟨rfl, rfl, ?_, ?_⟩
  · rw [string_from_asc, utf16Decode]
    rw [if_neg (by omega), if_pos (by omega)]
  · exact utf16_roundtrip s hs

/-- Witness for the amended C2 theorem on a concrete string with an
astral-plane character. -/
theorem decoders_validate_and_panic_witness :
    ([104, 66560].all scalarOk = true) ∧
      string_from_asc (utf16Encode [104, 66560]) = .ok [104, 66560] :=
  ⟨by decide, (decoders_validate_and_panic [] [104, 66560] (by decide)).2.2.2⟩

/-- C5 counterexample: a `Uint` token does not round-trip — it decodes
back as an `Int` token with the same limbs, a different value of the
`Token` sum type. -/
theorem uint_does_not_roundtrip :
    token_from_asc (token_to_asc (.uint [0, 0, 0, 0])) =
        .ok (.int [0, 0, 0, 0]) ∧
      EthToken.int [0, 0, 0, 0] ≠ EthToken.uint [0, 0, 0, 0] := by
  constructor
  · simp [token_to_asc, token_from_asc, fromAscArrayBuffer4, PanicOr.map]
  · exact fun hcontra => EthToken.noConfusion hcontra

/-- C5 (amended): for every well-formed host ABI token value v —
addresses carrying 20 bytes, U256 values carrying four little-endian u64
limbs — decoding the encoding of v succeeds and yields v with every
`Uint` variant replaced by `Int` with the same limbs; in particular
`from_asc(to_asc(v)) == v` exactly for values containing no `Uint`
(Uint decodes as Int because the big integer is signed on the host
side). -/
theorem token_abi_roundtrip (t : EthToken) (h : tokenWf t = true) :
    token_from_asc (token_to_asc t) = .ok (normToken t) ∧
      (uintFree t = true → normToken t = t) :=
  ⟨token_roundtrip t h, fun hu => normToken_id t hu⟩

/-- Witness for the amended C5 theorem on a sample token exercising the
address, string, u256, bool and nested-array bridges. -/
theorem token_abi_roundtrip_witness :
    tokenWf sampleToken = true ∧ uintFree sampleToken = true ∧
      token_from_asc (token_to_asc sampleToken) =
        .ok (normToken sampleToken) ∧
      normToken sampleToken = sampleToken := by
  have hwf : tokenWf sampleToken = true := by
    simp [sampleToken, tokenWf, tokensWf, scalarOk]
  have hu : uintFree sampleToken = true := by
    simp [sampleToken, uintFree, uintsFree]
  have h := token_abi_roundtrip sampleToken hwf
  exact ⟨hwf, hu, h.1, h.2 hu⟩

end GraphNode
